import Mathlib

/-!
Verification of the meeting-summarizer backend (src/backend/main.py).

The Python source is shallowly embedded below.  External collaborators
(the Whisper transcription model, the Gemini generative-text client, the
ffmpeg subprocess and `json.loads`) are modelled as oracle parameters:
each call site receives the outcome of the external call as a value
(`Except` for calls that can raise, `Option JValue` for JSON parsing),
while all logic of the repository itself is translated directly from the
source.
-/

namespace MeetingNotes

/-! ### Python string primitives

`str.strip` / `str.lstrip` remove the characters for which `str.isspace`
holds; `str.splitlines` splits at the Python line-boundary characters
(a strict subset of the whitespace characters). -/

/-- Characters for which Python `str.isspace` is true (the set used by
`str.strip()` with no argument). -/
def isPySpace (c : Char) : Bool :=
  c == ' ' || c == '\t' || c == '\n' || c == '\r' || c == '\x0b' || c == '\x0c' ||
  c == '\x1c' || c == '\x1d' || c == '\x1e' || c == '\x1f' || c == '\x85' ||
  c == '\xa0' || c == '\u1680' ||
  (decide ('\u2000' ≤ c) && decide (c ≤ '\u200a')) ||
  c == '\u2028' || c == '\u2029' || c == '\u202f' || c == '\u205f' || c == '\u3000'

/-- Line boundaries recognised by Python `str.splitlines`. -/
def isLineSep (c : Char) : Bool :=
  c == '\n' || c == '\r' || c == '\x0b' || c == '\x0c' ||
  c == '\x1c' || c == '\x1d' || c == '\x1e' || c == '\x85' ||
  c == '\u2028' || c == '\u2029'

/-- `str.lstrip()` on a character list. -/
def lstripL (l : List Char) : List Char := l.dropWhile isPySpace

/-- `str.rstrip()` on a character list. -/
def rstripL (l : List Char) : List Char := (l.reverse.dropWhile isPySpace).reverse

/-- `str.strip()` on a character list. -/
def stripL (l : List Char) : List Char := rstripL (lstripL l)

/-- Python `s.strip()`. -/
def pyStrip (s : String) : String := ⟨stripL s.data⟩

/-- Python `s.lstrip()`. -/
def pyLstrip (s : String) : String := ⟨lstripL s.data⟩

/-- Python `s.startswith(p)`. -/
def pyStartswith (s p : String) : Bool := p.data.isPrefixOf s.data

/-- Python `s.lower()` (ASCII part; the extensions compared against are ASCII). -/
def pyLower (s : String) : String := ⟨s.data.map Char.toLower⟩

/-- Python `str.splitlines` on a character list: splits at line boundaries,
treating a CR-LF pair as a single boundary; a trailing boundary does not
produce a trailing empty line. -/
def splitlinesL : List Char → List (List Char)
  | [] => []
  | [c] => if isLineSep c then [[]] else [[c]]
  | c :: c2 :: rest =>
    if c == '\r' && c2 == '\n' then [] :: splitlinesL rest
    else if isLineSep c then [] :: splitlinesL (c2 :: rest)
    else
      match splitlinesL (c2 :: rest) with
      | [] => [[c]]
      | l :: ls => (c :: l) :: ls

/-- Python `s.splitlines()`. -/
def pySplitlines (s : String) : List String := (splitlinesL s.data).map fun l => ⟨l⟩

/-! ### pathlib suffix (used by `is_video_file`) -/

/-- The last path component, as `pathlib.PurePosixPath(f).name`:
trailing slashes are ignored and everything up to the last slash is dropped. -/
def pathNameL (l : List Char) : List Char :=
  ((l.reverse.dropWhile (· == '/')).takeWhile (· != '/')).reverse

/-- `pathlib` suffix rule on the last component `name`: the suffix starts at
the last dot, provided that dot is neither the first nor the last character;
otherwise the suffix is empty. -/
def suffixOfName (name : List Char) : List Char :=
  let tailRev := name.reverse.takeWhile (· != '.')
  if tailRev.length < name.length ∧ 1 ≤ tailRev.length ∧ tailRev.length ≤ name.length - 2 then
    '.' :: tailRev.reverse
  else []

/-- Python `pathlib.Path(f).suffix`. -/
def pathSuffix (f : String) : String := ⟨suffixOfName (pathNameL f.data)⟩

/-! ### Media Normalizer (src/backend/main.py lines 67-109) -/

/-- The fixed extension set of `is_video_file`. -/
def videoExts : List String := [".mp4", ".mkv", ".avi", ".mov", ".webm"]

/-- `is_video_file(filename, content_type)` (main.py lines 67-73).
`none` models Python `None`; the nonempty-string conjuncts model the
truthiness guards `if filename:` / `if content_type:`. -/
def is_video_file (filename content_type : Option String) : Bool :=
  (match filename with
   | some f => decide (f ≠ "") && videoExts.contains (pyLower (pathSuffix f))
   | none => false) ||
  (match content_type with
   | some c => decide (c ≠ "") && pyStartswith c "video/"
   | none => false)

/-- Classification rule as worded by the specification: the input is video
exactly when the lowercased filename extension is in the fixed set, or the
declared content-type begins with "video/" (either condition sufficient). -/
def specIsVideo (filename content_type : Option String) : Bool :=
  (match filename with
   | some f => videoExts.contains (pyLower (pathSuffix f))
   | none => false) ||
  (match content_type with
   | some c => pyStartswith c "video/"
   | none => false)

/-- External invocations made by `transcribe_with_whisper_local`. -/
inductive MediaEvent where
  | ffmpegExtract
  | whisperTranscribe
deriving DecidableEq

/-- The ordered list of external invocations performed by
`transcribe_with_whisper_local` (main.py lines 88-109): on the video branch
the ffmpeg extraction subprocess runs and then the Whisper model transcribes
the extracted audio; otherwise the Whisper model transcribes the upload
directly and ffmpeg is never run. -/
def transcribeCalls (filename content_type : Option String) : List MediaEvent :=
  if is_video_file filename content_type then
    [MediaEvent.ffmpegExtract, MediaEvent.whisperTranscribe]
  else
    [MediaEvent.whisperTranscribe]

/-! ### Gemini responses and `extract_text` (main.py lines 52-62)

A Gemini response object is loosely typed: reading `response.text` may
raise (the try/except catches it), the attribute may be missing, and the
nested `candidates[0].content.parts[0].text` chain may itself raise.
The response is modelled by the outcomes of those two accesses. -/

structure GeminiResponse where
  /-- `hasattr(response, "text")`. -/
  hasTextAttr : Bool
  /-- Evaluating `response.text`: the string, or the raised exception. -/
  textAttr : Except String String
  /-- Evaluating `response.candidates[0].content.parts[0].text`. -/
  partText : Except String String

/-- The first `try` block of `extract_text` (main.py lines 54-58): `some`
when `hasattr(response, "text") and response.text` holds and no exception
is raised, in which case the stripped text is returned; `none` when the
attribute is missing, the access raises (caught by the `except: pass`) or
the text is falsy. -/
def extractFirstTry (hasTextAttr : Bool) (textAttr : Except String String) : Option String :=
  match hasTextAttr, textAttr with
  | true, Except.ok t => if t = "" then none else some (pyStrip t)
  | true, Except.error _ => none
  | false, _ => none

/-- `extract_text(response)` (main.py lines 52-62): prefer the direct
accessor when present, truthy and raising no exception; otherwise fall back
to the nested part text; if that access raises too, return the empty
string.  Total by construction - no exception escapes. -/
def extract_text (r : GeminiResponse) : String :=
  match extractFirstTry r.hasTextAttr r.textAttr with
  | some s => s
  | none =>
    match r.partText with
    | Except.ok t => pyStrip t
    | Except.error _ => ""

/-! ### Focused summary post-processing (main.py lines 137-209) -/

/-- The fixed fallback bullet of `summarize_focused` (main.py lines 193 and 200). -/
def fallbackBullet : String :=
  "• No relevant information was found in the meeting for the requested focus topics"

/-- Post-processing of the extracted model text in `summarize_focused`
(main.py lines 189-209): strip; empty text falls back to the fixed bullet;
text not beginning with a bullet is re-emitted line by line, stripping each
line, dropping blank lines, and prefixing lines that lack a bullet. -/
def summarizeFocusedPost (extracted : String) : String :=
  let text := pyStrip extracted
  if text = "" then fallbackBullet
  else if pyStartswith (pyLstrip text) "•" = false then
    let lines := ((pySplitlines text).map pyStrip).filter (fun l => l ≠ "")
    if lines = [] then fallbackBullet
    else
      String.intercalate "\n" (lines.map fun line =>
        if pyStartswith line "•" = false then "• " ++ line else line)
  else text

/-- `summarize_focused` (main.py lines 137-209), given the response of its
`generate_content` call. -/
def summarize_focused (r : GeminiResponse) : String :=
  summarizeFocusedPost (extract_text r)

/-- `summarize_main` (main.py lines 114-134), given the response of its
`generate_content` call: the extracted text, unmodified. -/
def summarize_main (r : GeminiResponse) : String := extract_text r

/-- `generate_diarized_transcript` (main.py lines 255-271), given the
response of its `generate_content` call: the extracted text, unmodified. -/
def generate_diarized_transcript (r : GeminiResponse) : String := extract_text r

/-! ### JSON values and structured insights (main.py lines 214-250) -/

/-- Values produced by `json.loads`. -/
inductive JValue where
  | null
  | bool (b : Bool)
  | num (n : Int)
  | str (s : String)
  | arr (xs : List JValue)
  | obj (kvs : List (String × JValue))

/-- The Python type name of a parsed JSON value, used in the
`AttributeError` message raised by attribute access on a non-dict. -/
def pyTypeName : JValue → String
  | JValue.null => "NoneType"
  | JValue.bool _ => "bool"
  | JValue.num _ => "int"
  | JValue.str _ => "str"
  | JValue.arr _ => "list"
  | JValue.obj _ => "dict"

/-- Python `value.get(key, default)`: succeeds only on a dict; on any other
parsed value the attribute access raises `AttributeError`. -/
def dictGet (v : JValue) (key : String) (dflt : JValue) : Except String JValue :=
  match v with
  | JValue.obj kvs => Except.ok ((kvs.lookup key).getD dflt)
  | _ => Except.error ("AttributeError: " ++ pyTypeName v ++ " object has no attribute get")

/-- The all-empty default structure returned on JSON parse failure
(main.py line 250). -/
def emptyInsights : JValue :=
  JValue.obj [("actions", JValue.arr []), ("decisions", JValue.arr []),
              ("owners", JValue.arr []), ("risks", JValue.arr [])]

/-- The try/except around `json.loads` in `extract_structured_insights`
(main.py lines 246-250): `parseJson` models `json.loads`, returning `none`
when it raises; a parse failure is absorbed into `emptyInsights`. -/
def insightsFromResponse (parseJson : String → Option JValue) (r : GeminiResponse) : JValue :=
  match parseJson (extract_text r) with
  | some v => v
  | none => emptyInsights

/-! ### Request Orchestrator, `process_meeting` (main.py lines 276-322) -/

/-- The four `generate_content` call sites of the derived-artifact stage. -/
inductive GenCall where
  | mainSummary
  | focusedSummary
  | insights
  | diarize
deriving DecidableEq

/-- Outcomes of all external calls made while handling one request:
`readBytes` is `await audio.read()`, `transcribe` is the whole
normalize-and-transcribe step (ffmpeg plus Whisper), `gen` gives the Gemini
response of each `generate_content` call site (`Except.error` models the
client raising), and `parseJson` models `json.loads` on the insights text. -/
structure ProcOracle where
  readBytes : Except String Unit
  transcribe : Except String String
  gen : GenCall → Except String GeminiResponse
  parseJson : String → Option JValue

/-- `extract_structured_insights` (main.py lines 214-250): the
`generate_content` call may raise; JSON parse failure never does. -/
def extract_structured_insights (O : ProcOracle) : Except String JValue :=
  match O.gen GenCall.insights with
  | Except.error e => Except.error e
  | Except.ok r => Except.ok (insightsFromResponse O.parseJson r)

/-- The flat error body `{"error": msg}` of a failure response. -/
def errBody (msg : String) : JValue := JValue.obj [("error", JValue.str msg)]

/-- The keys of a JSON object body. -/
def jsonKeys : JValue → List String
  | JValue.obj kvs => kvs.map Prod.fst
  | _ => []

/-- Key lookup in a JSON object body. -/
def jsonLookup (v : JValue) (key : String) : Option JValue :=
  match v with
  | JValue.obj kvs => kvs.lookup key
  | _ => none

/-- Assembly of the success response dict (main.py lines 310-319): the four
`structured.get(...)` accesses happen while the dict literal is evaluated
and raise when `structured` is not a dict. -/
def stage3Body (summary focused : String) (structured : JValue)
    (transcript diarized : String) : Except String JValue :=
  match dictGet structured "actions" (JValue.arr []) with
  | Except.error e => Except.error e
  | Except.ok actions =>
    match dictGet structured "decisions" (JValue.arr []) with
    | Except.error e => Except.error e
    | Except.ok decisions =>
      match dictGet structured "owners" (JValue.arr []) with
      | Except.error e => Except.error e
      | Except.ok owners =>
        match dictGet structured "risks" (JValue.arr []) with
        | Except.error e => Except.error e
        | Except.ok risks =>
          Except.ok (JValue.obj
            [("summary", JValue.str summary),
             ("focused_summary", JValue.str focused),
             ("actions", actions),
             ("decisions", decisions),
             ("owners", owners),
             ("risks", risks),
             ("transcript", JValue.str transcript),
             ("diarized", JValue.str diarized)])

/-- Tail of the derived-artifact stage after the main and focused summaries:
structured insights, then diarization, then response assembly; any raise is
mapped to HTTP 500 with a "Processing failed" body (main.py lines 304-322). -/
def stage3Finish (O : ProcOracle) (transcript summary focused : String)
    (calls : List GenCall) : List GenCall × Nat × JValue :=
  match extract_structured_insights O with
  | Except.error e =>
    (calls ++ [GenCall.insights], (500, errBody ("Processing failed: " ++ e)))
  | Except.ok structured =>
    match O.gen GenCall.diarize with
    | Except.error e =>
      (calls ++ [GenCall.insights, GenCall.diarize],
       (500, errBody ("Processing failed: " ++ e)))
    | Except.ok rD =>
      match stage3Body summary focused structured transcript
          (generate_diarized_transcript rD) with
      | Except.error e =>
        (calls ++ [GenCall.insights, GenCall.diarize],
         (500, errBody ("Processing failed: " ++ e)))
      | Except.ok body =>
        (calls ++ [GenCall.insights, GenCall.diarize], (200, body))

/-- The derived-artifact stage (main.py lines 294-322): main summary, then
the focused summary only when the trimmed focus prompt is nonempty, then
`stage3Finish`.  Returns the `generate_content` call sites actually invoked,
in order, together with the HTTP status and JSON body. -/
def stage3Run (O : ProcOracle) (transcript focus_prompt : String) :
    List GenCall × Nat × JValue :=
  match O.gen GenCall.mainSummary with
  | Except.error e => ([GenCall.mainSummary], (500, errBody ("Processing failed: " ++ e)))
  | Except.ok rM =>
    if pyStrip focus_prompt = "" then
      stage3Finish O transcript (summarize_main rM) "" [GenCall.mainSummary]
    else
      match O.gen GenCall.focusedSummary with
      | Except.error e =>
        ([GenCall.mainSummary, GenCall.focusedSummary],
         (500, errBody ("Processing failed: " ++ e)))
      | Except.ok rF =>
        stage3Finish O transcript (summarize_main rM) (summarize_focused rF)
          [GenCall.mainSummary, GenCall.focusedSummary]

/-- `process_meeting` (main.py lines 276-322), the POST /api/process
handler: read the upload (400 on failure), transcribe (500 on failure),
then run the derived-artifact stage.  The `language` form field only
affects prompt wording, never control flow.  The first component lists the
`generate_content` call sites invoked, in order. -/
def process_meeting (language focus_prompt : String) (O : ProcOracle) :
    List GenCall × Nat × JValue :=
  match O.readBytes with
  | Except.error e => ([], (400, errBody ("Failed to read file: " ++ e)))
  | Except.ok _ =>
    match O.transcribe with
    | Except.error e => ([], (500, errBody ("Transcription failed: " ++ e)))
    | Except.ok transcript_text => stage3Run O transcript_text focus_prompt

/-- Whether a parsed JSON value is a Python dict. -/
def jsonIsObj : JValue → Bool
  | JValue.obj _ => true
  | _ => false

/-! Sample oracles used by the witnesses below. -/

/-- A Gemini response whose direct text accessor yields "some text". -/
def sampleResp : GeminiResponse := ⟨true, Except.ok "some text", Except.error "no parts"⟩

/-- Every external call succeeds; the insights text fails to parse. -/
def oracleAllOk : ProcOracle :=
  ⟨Except.ok (), Except.ok "we discussed things",
   fun _ => Except.ok sampleResp, fun _ => none⟩

/-- The main-summary generate call raises; everything else succeeds. -/
def oracleMainRaises : ProcOracle :=
  ⟨Except.ok (), Except.ok "we discussed things",
   fun c => match c with
     | GenCall.mainSummary => Except.error "rate limit"
     | _ => Except.ok sampleResp,
   fun _ => none⟩

/-- A schema-conforming parsed insights object. -/
def insightsSample : List (String × JValue) :=
  [("actions", JValue.arr [JValue.obj
      [("task", JValue.str "ship"), ("owner", JValue.str "dana"),
       ("deadline", JValue.str "friday")]]),
   ("decisions", JValue.arr [JValue.str "go"]),
   ("owners", JValue.arr [JValue.obj
      [("person", JValue.str "dana"), ("responsibility", JValue.str "release")]]),
   ("risks", JValue.arr [JValue.str "slip"])]

/-- Every call succeeds and the insights text parses to `insightsSample`. -/
def oracleRoundtrip : ProcOracle :=
  ⟨Except.ok (), Except.ok "we discussed things",
   fun _ => Except.ok sampleResp, fun _ => some (JValue.obj insightsSample)⟩

/-- Every call succeeds and the insights text parses to a JSON array. -/
def oracleNonObj : ProcOracle :=
  ⟨Except.ok (), Except.ok "we discussed things",
   fun _ => Except.ok sampleResp, fun _ => some (JValue.arr [])⟩

example : pathSuffix "dir/movie.MP4" = ".MP4" := by decide
example : pathSuffix ".mp4" = "" := by decide
example : pathSuffix "a." = "" := by decide
example : is_video_file (some "a.MkV") none = true := by decide
example : is_video_file (some "a.txt") (some "video/mp4") = true := by decide
example : is_video_file (some "") none = false := by decide
example : pySplitlines "a\r\nb\nc" = ["a", "b", "c"] := by decide
example : pySplitlines "a\n" = ["a"] := by decide
example : pySplitlines "\n" = [""] := by decide
example : pyStrip "  a b \n" = "a b" := by decide
example : summarizeFocusedPost "" = fallbackBullet := by decide
example : summarizeFocusedPost " \n " = fallbackBullet := by decide
example : summarizeFocusedPost "• x" = "• x" := by decide
example : summarizeFocusedPost "a\nb" = "• a\n• b" := by decide
example : summarizeFocusedPost "a\n  • b" = "• a\n• b" := by decide

/-! ### Claim theorems -/

/-- C1: an upload is classified as video exactly when the lowercased
filename extension is one of .mp4, .mkv, .avi, .mov, .webm, or the declared
content-type begins with "video/" (either condition sufficient); whenever
the input is classified as video, the ffmpeg extraction subprocess is
invoked before the Whisper transcription call, and otherwise it is never
invoked. -/
theorem c1_video_classification (filename content_type : Option String) :
    is_video_file filename content_type = specIsVideo filename content_type ∧
    (is_video_file filename content_type = true →
      transcribeCalls filename content_type =
        [MediaEvent.ffmpegExtract, MediaEvent.whisperTranscribe]) ∧
    (is_video_file filename content_type = false →
      MediaEvent.ffmpegExtract ∉ transcribeCalls filename content_type) := by
  refine ⟨?_, ?_, ?_⟩
  · have hf : (match filename with
        | some f => decide (f ≠ "") && videoExts.contains (pyLower (pathSuffix f))
        | none => false) =
        (match filename with
        | some f => videoExts.contains (pyLower (pathSuffix f))
        | none => false) := by
      cases filename with
      | none => rfl
      | some f =>
        by_cases hf0 : f = ""
        · subst hf0; decide
        · simp [hf0]
    have hc : (match content_type with
        | some c => decide (c ≠ "") && pyStartswith c "video/"
        | none => false) =
        (match content_type with
        | some c => pyStartswith c "video/"
        | none => false) := by
      cases content_type with
      | none => rfl
      | some c =>
        by_cases hc0 : c = ""
        · subst hc0; decide
        · simp [hc0]
    unfold is_video_file specIsVideo
    rw [hf, hc]
  · intro h
    simp [transcribeCalls, h]
  · intro h
    simp [transcribeCalls, h]

/-- C1 witness: a .MOV upload is video and routes through ffmpeg before
Whisper; a .wav upload is not video and never invokes ffmpeg. -/
theorem c1_video_classification_witness :
    is_video_file (some "talk.MOV") none = true ∧
    transcribeCalls (some "talk.MOV") none =
      [MediaEvent.ffmpegExtract, MediaEvent.whisperTranscribe] ∧
    is_video_file (some "notes.wav") none = false ∧
    MediaEvent.ffmpegExtract ∉ transcribeCalls (some "notes.wav") none :=
  ⟨by decide, (c1_video_classification (some "talk.MOV") none).2.1 (by decide),
   by decide, (c1_video_classification (some "notes.wav") none).2.2 (by decide)⟩

/-- C3: when the generative call for the focused summary yields empty
extracted text, `summarize_focused` returns exactly the fixed fallback
bullet string, byte for byte. -/
theorem c3_focused_empty_fallback (r : GeminiResponse) (h : extract_text r = "") :
    summarize_focused r =
      "• No relevant information was found in the meeting for the requested focus topics" := by
  unfold summarize_focused
  rw [h]
  decide

/-- C3 witness: a response on which both text accesses raise extracts to
the empty string and produces the fallback bullet. -/
theorem c3_focused_empty_fallback_witness :
    summarize_focused ⟨false, Except.error "blocked", Except.error "no parts"⟩ =
      "• No relevant information was found in the meeting for the requested focus topics" :=
  c3_focused_empty_fallback _ (by decide)

/-- C5: whenever the insights model response text fails JSON parsing,
`extract_structured_insights` raises no exception and returns exactly the
all-empty structure with keys actions, decisions, owners, risks. -/
theorem c5_insights_parse_failure (O : ProcOracle) (r : GeminiResponse)
    (hgen : O.gen GenCall.insights = Except.ok r)
    (hparse : O.parseJson (extract_text r) = none) :
    extract_structured_insights O =
      Except.ok (JValue.obj [("actions", JValue.arr []), ("decisions", JValue.arr []),
                             ("owners", JValue.arr []), ("risks", JValue.arr [])]) := by
  simp [extract_structured_insights, hgen, insightsFromResponse, hparse, emptyInsights]

/-- C5 witness: a concrete oracle whose parse always fails yields the
all-empty structure without an exception. -/
theorem c5_insights_parse_failure_witness :
    extract_structured_insights
      ⟨Except.ok (), Except.ok "t",
       fun _ => Except.ok ⟨true, Except.ok "not json", Except.error "e"⟩,
       fun _ => none⟩ =
      Except.ok (JValue.obj [("actions", JValue.arr []), ("decisions", JValue.arr []),
                             ("owners", JValue.arr []), ("risks", JValue.arr [])]) :=
  c5_insights_parse_failure _ ⟨true, Except.ok "not json", Except.error "e"⟩ rfl rfl

/-- C7: `extract_text` is total - it returns a string on every response and
never raises.  When the direct text attribute exists, evaluates without
raising and is nonempty, the stripped attribute value is returned;
otherwise the stripped first-candidate first-part text is returned, and if
that access raises too, the empty string. -/
theorem c7_extract_text_total (r : GeminiResponse) :
    (∀ t, r.hasTextAttr = true → r.textAttr = Except.ok t → t ≠ "" →
      extract_text r = pyStrip t) ∧
    ((r.hasTextAttr = false ∨ (∃ e, r.textAttr = Except.error e) ∨
        r.textAttr = Except.ok "") →
      (∀ t, r.partText = Except.ok t → extract_text r = pyStrip t) ∧
      (∀ e, r.partText = Except.error e → extract_text r = "")) := by
  obtain ⟨hA, tA, pT⟩ := r
  constructor
  · intro t h1 h2 h3
    simp only at h1 h2
    subst h1
    subst h2
    simp [extract_text, extractFirstTry, h3]
  · intro h
    have hfirst : extractFirstTry hA tA = none := by
      rcases h with h | ⟨e, he⟩ | he
      · simp only at h
        subst h
        rfl
      · simp only at he
        subst he
        cases hA <;> simp [extractFirstTry]
      · simp only at he
        subst he
        cases hA <;> simp [extractFirstTry]
    constructor
    · intro t ht
      simp only at ht
      subst ht
      simp [extract_text, hfirst]
    · intro e hee
      simp only at hee
      subst hee
      simp [extract_text, hfirst]

/-! Helper lemmas about the orchestrator. -/

/-- `stage3Body` on a parsed dict never raises and yields the response
object with the four `get` results spliced in. -/
theorem stage3Body_obj (su fo : String) (kvs : List (String × JValue)) (t d : String) :
    stage3Body su fo (JValue.obj kvs) t d = Except.ok (JValue.obj
      [("summary", JValue.str su), ("focused_summary", JValue.str fo),
       ("actions", (kvs.lookup "actions").getD (JValue.arr [])),
       ("decisions", (kvs.lookup "decisions").getD (JValue.arr [])),
       ("owners", (kvs.lookup "owners").getD (JValue.arr [])),
       ("risks", (kvs.lookup "risks").getD (JValue.arr [])),
       ("transcript", JValue.str t), ("diarized", JValue.str d)]) := rfl

/-- `stage3Body` on a parsed non-dict raises at the first `get`. -/
theorem stage3Body_nonobj (su fo : String) (structured : JValue) (t d : String)
    (h : jsonIsObj structured = false) :
    ∃ e, stage3Body su fo structured t d = Except.error e := by
  cases structured with
  | obj kvs => simp [jsonIsObj] at h
  | null => exact ⟨_, rfl⟩
  | bool b => exact ⟨_, rfl⟩
  | num n => exact ⟨_, rfl⟩
  | str s => exact ⟨_, rfl⟩
  | arr xs => exact ⟨_, rfl⟩

/-- The calls traced by `stage3Finish` extend `calls` by the insights call
and possibly the diarize call. -/
theorem stage3Finish_trace (O : ProcOracle) (t su fo : String) (calls : List GenCall) :
    (stage3Finish O t su fo calls).1 = calls ++ [GenCall.insights] ∨
    (stage3Finish O t su fo calls).1 = calls ++ [GenCall.insights, GenCall.diarize] := by
  cases hI : extract_structured_insights O with
  | error e => left; simp [stage3Finish, hI]
  | ok structured =>
    cases hD : O.gen GenCall.diarize with
    | error e => right; simp [stage3Finish, hI, hD]
    | ok rD =>
      cases hB : stage3Body su fo structured t (generate_diarized_transcript rD) with
      | error e => right; simp [stage3Finish, hI, hD, hB]
      | ok body => right; simp [stage3Finish, hI, hD, hB]

/-- If some generate call traced by `stage3Finish` raises while the calls
already made succeeded, the stage result is a 500 "Processing failed"
response. -/
theorem stage3Finish_fail (O : ProcOracle) (t su fo : String) (calls : List GenCall)
    (hcalls : ∀ c ∈ calls, ∃ r, O.gen c = Except.ok r)
    (hfail : ∃ c e, c ∈ (stage3Finish O t su fo calls).1 ∧ O.gen c = Except.error e) :
    ∃ e, (stage3Finish O t su fo calls).2 =
      (500, errBody ("Processing failed: " ++ e)) := by
  cases hI : O.gen GenCall.insights with
  | error e =>
    exact ⟨e, by simp [stage3Finish, extract_structured_insights, hI]⟩
  | ok rI =>
    have hIns : extract_structured_insights O =
        Except.ok (insightsFromResponse O.parseJson rI) := by
      simp [extract_structured_insights, hI]
    cases hD : O.gen GenCall.diarize with
    | error e =>
      exact ⟨e, by simp [stage3Finish, hIns, hD]⟩
    | ok rD =>
      cases hB : stage3Body su fo (insightsFromResponse O.parseJson rI) t
          (generate_diarized_transcript rD) with
      | error e =>
        exact ⟨e, by simp [stage3Finish, hIns, hD, hB]⟩
      | ok body =>
        exfalso
        obtain ⟨c, e, hc, hce⟩ := hfail
        have htrace : (stage3Finish O t su fo calls).1 =
            calls ++ [GenCall.insights, GenCall.diarize] := by
          simp [stage3Finish, hIns, hD, hB]
        rw [htrace] at hc
        rcases List.mem_append.1 hc with hc | hc
        · obtain ⟨r, hr⟩ := hcalls c hc
          rw [hr] at hce
          exact Except.noConfusion hce
        · simp at hc
          rcases hc with rfl | rfl
          · rw [hI] at hce
            exact Except.noConfusion hce
          · rw [hD] at hce
            exact Except.noConfusion hce

/-- When the insights response parses to a dict holding all four keys and
the diarize call succeeds, `stage3Finish` commits a 200 response whose four
insight fields are exactly the parsed values. -/
theorem stage3Finish_roundtrip (O : ProcOracle) (t su fo : String) (calls : List GenCall)
    (rI rD : GeminiResponse) (kvs : List (String × JValue)) (a dec ow ri : JValue)
    (hI : O.gen GenCall.insights = Except.ok rI)
    (hparse : O.parseJson (extract_text rI) = some (JValue.obj kvs))
    (hD : O.gen GenCall.diarize = Except.ok rD)
    (ha : kvs.lookup "actions" = some a)
    (hdec : kvs.lookup "decisions" = some dec)
    (how : kvs.lookup "owners" = some ow)
    (hri : kvs.lookup "risks" = some ri) :
    ∃ b, (stage3Finish O t su fo calls).2 = (200, b) ∧
      jsonLookup b "actions" = some a ∧ jsonLookup b "decisions" = some dec ∧
      jsonLookup b "owners" = some ow ∧ jsonLookup b "risks" = some ri := by
  have hIns : extract_structured_insights O = Except.ok (JValue.obj kvs) := by
    simp [extract_structured_insights, hI, insightsFromResponse, hparse]
  refine ⟨JValue.obj
    [("summary", JValue.str su), ("focused_summary", JValue.str fo),
     ("actions", (kvs.lookup "actions").getD (JValue.arr [])),
     ("decisions", (kvs.lookup "decisions").getD (JValue.arr [])),
     ("owners", (kvs.lookup "owners").getD (JValue.arr [])),
     ("risks", (kvs.lookup "risks").getD (JValue.arr [])),
     ("transcript", JValue.str t),
     ("diarized", JValue.str (generate_diarized_transcript rD))], ?_, ?_, ?_, ?_, ?_⟩
  · simp [stage3Finish, hIns, hD, stage3Body_obj]
  · have h0 : jsonLookup (JValue.obj
        [("summary", JValue.str su), ("focused_summary", JValue.str fo),
         ("actions", (kvs.lookup "actions").getD (JValue.arr [])),
         ("decisions", (kvs.lookup "decisions").getD (JValue.arr [])),
         ("owners", (kvs.lookup "owners").getD (JValue.arr [])),
         ("risks", (kvs.lookup "risks").getD (JValue.arr [])),
         ("transcript", JValue.str t),
         ("diarized", JValue.str (generate_diarized_transcript rD))]) "actions" =
        some ((kvs.lookup "actions").getD (JValue.arr [])) := rfl
    rw [h0, ha]
    rfl
  · have h0 : jsonLookup (JValue.obj
        [("summary", JValue.str su), ("focused_summary", JValue.str fo),
         ("actions", (kvs.lookup "actions").getD (JValue.arr [])),
         ("decisions", (kvs.lookup "decisions").getD (JValue.arr [])),
         ("owners", (kvs.lookup "owners").getD (JValue.arr [])),
         ("risks", (kvs.lookup "risks").getD (JValue.arr [])),
         ("transcript", JValue.str t),
         ("diarized", JValue.str (generate_diarized_transcript rD))]) "decisions" =
        some ((kvs.lookup "decisions").getD (JValue.arr [])) := rfl
    rw [h0, hdec]
    rfl
  · have h0 : jsonLookup (JValue.obj
        [("summary", JValue.str su), ("focused_summary", JValue.str fo),
         ("actions", (kvs.lookup "actions").getD (JValue.arr [])),
         ("decisions", (kvs.lookup "decisions").getD (JValue.arr [])),
         ("owners", (kvs.lookup "owners").getD (JValue.arr [])),
         ("risks", (kvs.lookup "risks").getD (JValue.arr [])),
         ("transcript", JValue.str t),
         ("diarized", JValue.str (generate_diarized_transcript rD))]) "owners" =
        some ((kvs.lookup "owners").getD (JValue.arr [])) := rfl
    rw [h0, how]
    rfl
  · have h0 : jsonLookup (JValue.obj
        [("summary", JValue.str su), ("focused_summary", JValue.str fo),
         ("actions", (kvs.lookup "actions").getD (JValue.arr [])),
         ("decisions", (kvs.lookup "decisions").getD (JValue.arr [])),
         ("owners", (kvs.lookup "owners").getD (JValue.arr [])),
         ("risks", (kvs.lookup "risks").getD (JValue.arr [])),
         ("transcript", JValue.str t),
         ("diarized", JValue.str (generate_diarized_transcript rD))]) "risks" =
        some ((kvs.lookup "risks").getD (JValue.arr [])) := rfl
    rw [h0, hri]
    rfl

/-- Any 200 response committed by `stage3Finish` stems from a parsed dict
and a successful diarize call, and its body is the assembled object with
the given summary and focused-summary strings. -/
theorem stage3Finish_200 (O : ProcOracle) (t su fo : String) (calls : List GenCall)
    (body : JValue) (hb : (stage3Finish O t su fo calls).2 = (200, body)) :
    ∃ kvs rD, extract_structured_insights O = Except.ok (JValue.obj kvs) ∧
      O.gen GenCall.diarize = Except.ok rD ∧
      body = JValue.obj
        [("summary", JValue.str su), ("focused_summary", JValue.str fo),
         ("actions", (kvs.lookup "actions").getD (JValue.arr [])),
         ("decisions", (kvs.lookup "decisions").getD (JValue.arr [])),
         ("owners", (kvs.lookup "owners").getD (JValue.arr [])),
         ("risks", (kvs.lookup "risks").getD (JValue.arr [])),
         ("transcript", JValue.str t),
         ("diarized", JValue.str (generate_diarized_transcript rD))] := by
  cases hI : extract_structured_insights O with
  | error e => simp [stage3Finish, hI] at hb
  | ok structured =>
    cases hD : O.gen GenCall.diarize with
    | error e => simp [stage3Finish, hI, hD] at hb
    | ok rD =>
      cases structured with
      | obj kvs =>
        refine ⟨kvs, rD, rfl, rfl, ?_⟩
        simp [stage3Finish, hI, hD, stage3Body_obj] at hb
        exact hb.symm
      | null =>
        obtain ⟨e, he⟩ := stage3Body_nonobj su fo JValue.null t
          (generate_diarized_transcript rD) rfl
        simp [stage3Finish, hI, hD, he] at hb
      | bool b =>
        obtain ⟨e, he⟩ := stage3Body_nonobj su fo (JValue.bool b) t
          (generate_diarized_transcript rD) rfl
        simp [stage3Finish, hI, hD, he] at hb
      | num n =>
        obtain ⟨e, he⟩ := stage3Body_nonobj su fo (JValue.num n) t
          (generate_diarized_transcript rD) rfl
        simp [stage3Finish, hI, hD, he] at hb
      | str s =>
        obtain ⟨e, he⟩ := stage3Body_nonobj su fo (JValue.str s) t
          (generate_diarized_transcript rD) rfl
        simp [stage3Finish, hI, hD, he] at hb
      | arr xs =>
        obtain ⟨e, he⟩ := stage3Body_nonobj su fo (JValue.arr xs) t
          (generate_diarized_transcript rD) rfl
        simp [stage3Finish, hI, hD, he] at hb

/-- When the insights response parses to a non-dict and the diarize call
succeeds, the response assembly raises and `stage3Finish` yields a 500
"Processing failed" response. -/
theorem stage3Finish_nonobj (O : ProcOracle) (t su fo : String) (calls : List GenCall)
    (rI rD : GeminiResponse) (v : JValue)
    (hI : O.gen GenCall.insights = Except.ok rI)
    (hparse : O.parseJson (extract_text rI) = some v)
    (hv : jsonIsObj v = false)
    (hD : O.gen GenCall.diarize = Except.ok rD) :
    ∃ e, (stage3Finish O t su fo calls).2 =
      (500, errBody ("Processing failed: " ++ e)) := by
  have hIns : extract_structured_insights O = Except.ok v := by
    simp [extract_structured_insights, hI, insightsFromResponse, hparse]
  obtain ⟨e, he⟩ := stage3Body_nonobj su fo v t (generate_diarized_transcript rD) hv
  exact ⟨e, by simp [stage3Finish, hIns, hD, he]⟩

/-- C7 witness: the three access outcomes on concrete responses. -/
theorem c7_extract_text_total_witness :
    extract_text ⟨true, Except.ok "  hi  ", Except.error "boom"⟩ = pyStrip "  hi  " ∧
    extract_text ⟨false, Except.ok "zzz", Except.ok " part "⟩ = pyStrip " part " ∧
    extract_text ⟨true, Except.error "blocked", Except.error "oops"⟩ = "" :=
  ⟨(c7_extract_text_total _).1 _ rfl rfl (by decide),
   ((c7_extract_text_total _).2 (Or.inl rfl)).1 _ rfl,
   ((c7_extract_text_total _).2 (Or.inr (Or.inl ⟨"blocked", rfl⟩))).2 _ rfl⟩

/-- C2: if any derived-artifact generate call that actually runs raises,
POST /api/process returns HTTP 500 with body
{"error": "Processing failed: <cause>"}, and the body carries no partial
results - its only key is "error". -/
theorem c2_processing_failed (language focus_prompt : String) (O : ProcOracle)
    (hread : O.readBytes = Except.ok ())
    (htrans : ∃ t, O.transcribe = Except.ok t)
    (hfail : ∃ c e, c ∈ (process_meeting language focus_prompt O).1 ∧
        O.gen c = Except.error e) :
    ∃ e, (process_meeting language focus_prompt O).2 =
        (500, errBody ("Processing failed: " ++ e)) ∧
      jsonKeys (process_meeting language focus_prompt O).2.2 = ["error"] := by
  obtain ⟨t, ht⟩ := htrans
  have hpm : process_meeting language focus_prompt O = stage3Run O t focus_prompt := by
    simp [process_meeting, hread, ht]
  rw [hpm] at hfail ⊢
  suffices h : ∃ e, (stage3Run O t focus_prompt).2 =
      (500, errBody ("Processing failed: " ++ e)) by
    obtain ⟨e, he⟩ := h
    exact ⟨e, he, by rw [he]; rfl⟩
  cases hM : O.gen GenCall.mainSummary with
  | error e =>
    exact ⟨e, by simp [stage3Run, hM]⟩
  | ok rM =>
    by_cases hfp : pyStrip focus_prompt = ""
    · have h1 : stage3Run O t focus_prompt =
          stage3Finish O t (summarize_main rM) "" [GenCall.mainSummary] := by
        simp [stage3Run, hM, hfp]
      rw [h1] at hfail ⊢
      refine stage3Finish_fail O t _ _ _ ?_ hfail
      intro c hc
      simp at hc
      subst hc
      exact ⟨rM, hM⟩
    · cases hF : O.gen GenCall.focusedSummary with
      | error e =>
        exact ⟨e, by simp [stage3Run, hM, hfp, hF]⟩
      | ok rF =>
        have h1 : stage3Run O t focus_prompt =
            stage3Finish O t (summarize_main rM) (summarize_focused rF)
              [GenCall.mainSummary, GenCall.focusedSummary] := by
          simp [stage3Run, hM, hfp, hF]
        rw [h1] at hfail ⊢
        refine stage3Finish_fail O t _ _ _ ?_ hfail
        intro c hc
        simp at hc
        rcases hc with rfl | rfl
        · exact ⟨rM, hM⟩
        · exact ⟨rF, hF⟩

/-- C2 witness: with an oracle whose main-summary call raises, the endpoint
reports 500 "Processing failed" and the body has only the error key. -/
theorem c2_processing_failed_witness :
    ∃ e, (process_meeting "English" "" oracleMainRaises).2 =
        (500, errBody ("Processing failed: " ++ e)) ∧
      jsonKeys (process_meeting "English" "" oracleMainRaises).2.2 = ["error"] :=
  c2_processing_failed "English" "" oracleMainRaises rfl ⟨"we discussed things", rfl⟩
    ⟨GenCall.mainSummary, "rate limit", by decide, rfl⟩

/-- C6: when the focus prompt trims to the empty string, the
focused-summary generate call is never invoked and a successful response
carries `focused_summary` equal to the empty string. -/
theorem c6_empty_focus_skips (language focus_prompt : String) (O : ProcOracle)
    (hfp : pyStrip focus_prompt = "") :
    GenCall.focusedSummary ∉ (process_meeting language focus_prompt O).1 ∧
    ∀ body, (process_meeting language focus_prompt O).2 = (200, body) →
      jsonLookup body "focused_summary" = some (JValue.str "") := by
  cases hr : O.readBytes with
  | error e =>
    refine ⟨by simp [process_meeting, hr], ?_⟩
    intro body hb
    simp [process_meeting, hr] at hb
  | ok u =>
    cases ht : O.transcribe with
    | error e =>
      refine ⟨by simp [process_meeting, hr, ht], ?_⟩
      intro body hb
      simp [process_meeting, hr, ht] at hb
    | ok t =>
      have hpm : process_meeting language focus_prompt O = stage3Run O t focus_prompt := by
        simp [process_meeting, hr, ht]
      rw [hpm]
      cases hM : O.gen GenCall.mainSummary with
      | error e =>
        refine ⟨by simp [stage3Run, hM], ?_⟩
        intro body hb
        simp [stage3Run, hM] at hb
      | ok rM =>
        have h1 : stage3Run O t focus_prompt =
            stage3Finish O t (summarize_main rM) "" [GenCall.mainSummary] := by
          simp [stage3Run, hM, hfp]
        rw [h1]
        constructor
        · rcases stage3Finish_trace O t (summarize_main rM) "" [GenCall.mainSummary]
            with h2 | h2 <;> rw [h2] <;> decide
        · intro body hb
          obtain ⟨kvs, rD, hI, hD, rfl⟩ :=
            stage3Finish_200 O t (summarize_main rM) "" [GenCall.mainSummary] body hb
          rfl

/-- C6 witness: with a whitespace-only focus prompt and an all-successful
oracle, the focused call is skipped and the 200 body carries the empty
focused summary. -/
theorem c6_empty_focus_skips_witness :
    GenCall.focusedSummary ∉ (process_meeting "English" "  " oracleAllOk).1 ∧
    jsonLookup (process_meeting "English" "  " oracleAllOk).2.2 "focused_summary" =
      some (JValue.str "") :=
  ⟨(c6_empty_focus_skips "English" "  " oracleAllOk (by decide)).1,
   (c6_empty_focus_skips "English" "  " oracleAllOk (by decide)).2
     (process_meeting "English" "  " oracleAllOk).2.2 rfl⟩

/-- C8: a model response parsing to a JSON object with the four documented
keys round-trips - `extract_structured_insights` returns exactly that
object, and the 200 response body passes the four values through unchanged
to the actions, decisions, owners and risks keys. -/
theorem c8_insights_roundtrip (language focus_prompt : String) (O : ProcOracle)
    (t : String) (rM rI rD : GeminiResponse) (kvs : List (String × JValue))
    (a dec ow ri : JValue)
    (hread : O.readBytes = Except.ok ())
    (htr : O.transcribe = Except.ok t)
    (hM : O.gen GenCall.mainSummary = Except.ok rM)
    (hF : pyStrip focus_prompt ≠ "" → ∃ rF, O.gen GenCall.focusedSummary = Except.ok rF)
    (hI : O.gen GenCall.insights = Except.ok rI)
    (hparse : O.parseJson (extract_text rI) = some (JValue.obj kvs))
    (ha : kvs.lookup "actions" = some a)
    (hdec : kvs.lookup "decisions" = some dec)
    (how : kvs.lookup "owners" = some ow)
    (hri : kvs.lookup "risks" = some ri)
    (hD : O.gen GenCall.diarize = Except.ok rD) :
    extract_structured_insights O = Except.ok (JValue.obj kvs) ∧
    ∃ b, (process_meeting language focus_prompt O).2 = (200, b) ∧
      jsonLookup b "actions" = some a ∧ jsonLookup b "decisions" = some dec ∧
      jsonLookup b "owners" = some ow ∧ jsonLookup b "risks" = some ri := by
  refine ⟨by simp [extract_structured_insights, hI, insightsFromResponse, hparse], ?_⟩
  have hpm : process_meeting language focus_prompt O = stage3Run O t focus_prompt := by
    simp [process_meeting, hread, htr]
  rw [hpm]
  by_cases hfp : pyStrip focus_prompt = ""
  · have h1 : stage3Run O t focus_prompt =
        stage3Finish O t (summarize_main rM) "" [GenCall.mainSummary] := by
      simp [stage3Run, hM, hfp]
    rw [h1]
    exact stage3Finish_roundtrip O t _ _ _ rI rD kvs a dec ow ri hI hparse hD ha hdec how hri
  · obtain ⟨rF, hFok⟩ := hF hfp
    have h1 : stage3Run O t focus_prompt =
        stage3Finish O t (summarize_main rM) (summarize_focused rF)
          [GenCall.mainSummary, GenCall.focusedSummary] := by
      simp [stage3Run, hM, hfp, hFok]
    rw [h1]
    exact stage3Finish_roundtrip O t _ _ _ rI rD kvs a dec ow ri hI hparse hD ha hdec how hri

/-- C8 witness: a concrete schema-conforming parse round-trips into the 200
body unchanged. -/
theorem c8_insights_roundtrip_witness :
    extract_structured_insights oracleRoundtrip = Except.ok (JValue.obj insightsSample) ∧
    ∃ b, (process_meeting "English" "risks" oracleRoundtrip).2 = (200, b) ∧
      jsonLookup b "actions" = some (JValue.arr [JValue.obj
        [("task", JValue.str "ship"), ("owner", JValue.str "dana"),
         ("deadline", JValue.str "friday")]]) ∧
      jsonLookup b "decisions" = some (JValue.arr [JValue.str "go"]) ∧
      jsonLookup b "owners" = some (JValue.arr [JValue.obj
        [("person", JValue.str "dana"), ("responsibility", JValue.str "release")]]) ∧
      jsonLookup b "risks" = some (JValue.arr [JValue.str "slip"]) :=
  c8_insights_roundtrip "English" "risks" oracleRoundtrip "we discussed things"
    sampleResp sampleResp sampleResp insightsSample _ _ _ _
    rfl rfl rfl (fun _ => ⟨sampleResp, rfl⟩) rfl rfl rfl rfl rfl rfl rfl

/-- C9: when the insights response parses to valid JSON that is not an
object, `extract_structured_insights` returns that value unchanged, and the
subsequent attribute access in the response assembly raises, so the
endpoint returns 500 "Processing failed" instead of the all-empty default
structure. -/
theorem c9_nonobject_insights (language focus_prompt : String) (O : ProcOracle)
    (t : String) (rM rI rD : GeminiResponse) (v : JValue)
    (hread : O.readBytes = Except.ok ())
    (htr : O.transcribe = Except.ok t)
    (hM : O.gen GenCall.mainSummary = Except.ok rM)
    (hF : pyStrip focus_prompt ≠ "" → ∃ rF, O.gen GenCall.focusedSummary = Except.ok rF)
    (hI : O.gen GenCall.insights = Except.ok rI)
    (hparse : O.parseJson (extract_text rI) = some v)
    (hv : jsonIsObj v = false)
    (hD : O.gen GenCall.diarize = Except.ok rD) :
    extract_structured_insights O = Except.ok v ∧
    ∃ e, (process_meeting language focus_prompt O).2 =
      (500, errBody ("Processing failed: " ++ e)) := by
  refine ⟨by simp [extract_structured_insights, hI, insightsFromResponse, hparse], ?_⟩
  have hpm : process_meeting language focus_prompt O = stage3Run O t focus_prompt := by
    simp [process_meeting, hread, htr]
  rw [hpm]
  by_cases hfp : pyStrip focus_prompt = ""
  · have h1 : stage3Run O t focus_prompt =
        stage3Finish O t (summarize_main rM) "" [GenCall.mainSummary] := by
      simp [stage3Run, hM, hfp]
    rw [h1]
    exact stage3Finish_nonobj O t _ _ _ rI rD v hI hparse hv hD
  · obtain ⟨rF, hFok⟩ := hF hfp
    have h1 : stage3Run O t focus_prompt =
        stage3Finish O t (summarize_main rM) (summarize_focused rF)
          [GenCall.mainSummary, GenCall.focusedSummary] := by
      simp [stage3Run, hM, hfp, hFok]
    rw [h1]
    exact stage3Finish_nonobj O t _ _ _ rI rD v hI hparse hv hD

/-- C9 witness: an insights response parsing to a JSON array surfaces as a
500 "Processing failed" response. -/
theorem c9_nonobject_insights_witness :
    extract_structured_insights oracleNonObj = Except.ok (JValue.arr []) ∧
    ∃ e, (process_meeting "English" "" oracleNonObj).2 =
      (500, errBody ("Processing failed: " ++ e)) :=
  c9_nonobject_insights "English" "" oracleNonObj "we discussed things"
    sampleResp sampleResp sampleResp (JValue.arr [])
    rfl rfl rfl (fun h => absurd rfl h) rfl rfl rfl rfl

/-! Lemmas about the Python string primitives, used for the focused-summary
re-bulleting claims. -/

/-- Every splitlines boundary character is whitespace for `strip`. -/
theorem isPySpace_of_isLineSep {c : Char} (h : isLineSep c = true) : isPySpace c = true := by
  simp only [isLineSep, Bool.or_eq_true, beq_iff_eq] at h
  obtain ((((((((rfl | rfl) | rfl) | rfl) | rfl) | rfl) | rfl) | rfl) | rfl) | rfl := h <;>
    decide

/-- The head surviving a `dropWhile` fails the predicate. -/
theorem dropWhile_head_false {α} {p : α → Bool} {l t : List α} {c : α}
    (h : l.dropWhile p = c :: t) : p c = false := by
  induction l with
  | nil => simp [List.dropWhile] at h
  | cons a l ih =>
    rw [List.dropWhile_cons] at h
    by_cases hp : p a
    · rw [if_pos hp] at h
      exact ih h
    · rw [if_neg hp] at h
      injection h with h1 h2
      subst h1
      simpa using hp

/-- A nonempty prefix starts with the same element. -/
theorem prefix_cons_shape {α} {l₁ l₂ t : List α} {c : α}
    (h : l₁ <+: l₂) (he : l₁ = c :: t) : ∃ t₂, l₂ = c :: t₂ := by
  obtain ⟨u, hu⟩ := h
  exact ⟨t ++ u, by rw [← hu, he]; rfl⟩

/-- `rstrip` only removes a suffix. -/
theorem rstripL_prefix_self (l : List Char) : rstripL l <+: l := by
  have h : (l.reverse.dropWhile isPySpace).reverse <+: l.reverse.reverse :=
    List.reverse_prefix.mpr (List.dropWhile_suffix isPySpace)
  simpa using h

theorem lstripL_eq_nil_iff {l : List Char} :
    lstripL l = [] ↔ ∀ c ∈ l, isPySpace c = true := by
  simp [lstripL, List.dropWhile_eq_nil_iff]

theorem rstripL_eq_nil_iff {l : List Char} :
    rstripL l = [] ↔ ∀ c ∈ l, isPySpace c = true := by
  simp [rstripL, List.dropWhile_eq_nil_iff]

theorem stripL_eq_nil_iff {l : List Char} :
    stripL l = [] ↔ ∀ c ∈ l, isPySpace c = true := by
  constructor
  · intro h c hc
    have h1 : ∀ c ∈ lstripL l, isPySpace c = true := rstripL_eq_nil_iff.mp h
    have h2 : l = l.takeWhile isPySpace ++ lstripL l :=
      (List.takeWhile_append_dropWhile isPySpace l).symm
    rcases List.mem_append.mp (h2 ▸ hc) with hc1 | hc2
    · exact List.mem_takeWhile_imp hc1
    · exact h1 c hc2
  · intro h
    have h0 : lstripL l = [] := lstripL_eq_nil_iff.mpr h
    simp [stripL, h0, rstripL]

/-- The head of a stripped string is not whitespace. -/
theorem stripL_head_not_space {l t : List Char} {c : Char} (h : stripL l = c :: t) :
    isPySpace c = false := by
  have hpre : stripL l <+: lstripL l := rstripL_prefix_self (lstripL l)
  obtain ⟨t₂, ht₂⟩ := prefix_cons_shape hpre h
  have ht₂' : l.dropWhile isPySpace = c :: t₂ := ht₂
  exact dropWhile_head_false ht₂'

theorem dropWhile_idem {α} (p : α → Bool) (l : List α) :
    (l.dropWhile p).dropWhile p = l.dropWhile p := by
  cases h : l.dropWhile p with
  | nil => rfl
  | cons c t =>
    have hc := dropWhile_head_false h
    exact List.dropWhile_cons_of_neg (by simp [hc])

/-- `lstrip` is the identity on a stripped string. -/
theorem lstripL_of_stripped {d : List Char} (hd : stripL d = d) : lstripL d = d := by
  cases h : d with
  | nil => rfl
  | cons c t =>
    have hc : isPySpace c = false := stripL_head_not_space (h ▸ hd)
    exact List.dropWhile_cons_of_neg (by simp [hc])

/-- `strip` is idempotent. -/
theorem stripL_idem (l : List Char) : stripL (stripL l) = stripL l := by
  have hrev : (stripL l).reverse = (lstripL l).reverse.dropWhile isPySpace := by
    simp [stripL, rstripL]
  have h1 : lstripL (stripL l) = stripL l := by
    cases h : stripL l with
    | nil => rfl
    | cons c t =>
      have hc := stripL_head_not_space h
      exact List.dropWhile_cons_of_neg (by simp [hc])
  show rstripL (lstripL (stripL l)) = stripL l
  rw [h1]
  show ((stripL l).reverse.dropWhile isPySpace).reverse = stripL l
  rw [hrev, dropWhile_idem, ← hrev, List.reverse_reverse]

/-- Stripping a list headed by a non-space character keeps that head. -/
theorem stripL_cons_of_head (c : Char) (L : List Char) (hc : isPySpace c = false) :
    ∃ t₂, stripL (c :: L) = c :: t₂ := by
  have hl : lstripL (c :: L) = c :: L := List.dropWhile_cons_of_neg (by simp [hc])
  have hne : rstripL (c :: L) ≠ [] := by
    intro hnil
    have := rstripL_eq_nil_iff.mp hnil c (by simp)
    rw [this] at hc
    exact Bool.noConfusion hc
  have hpre : rstripL (c :: L) <+: c :: L := rstripL_prefix_self (c :: L)
  cases h : rstripL (c :: L) with
  | nil => exact absurd h hne
  | cons c₀ t₂ =>
    obtain ⟨u, hu⟩ := hpre
    rw [h] at hu
    have h1 : c₀ = c := by
      injection hu
    rw [h1] at h
    exact ⟨t₂, by show rstripL (lstripL (c :: L)) = c :: t₂; rw [hl, h]⟩

/-- A nonempty list splits into at least one line. -/
theorem splitlinesL_ne_nil {l : List Char} (h : l ≠ []) : splitlinesL l ≠ [] := by
  cases l with
  | nil => exact absurd rfl h
  | cons c rest =>
    cases rest with
    | nil =>
      simp only [splitlinesL]
      split <;> simp
    | cons c2 rest2 =>
      simp only [splitlinesL]
      split
      · simp
      · split
        · simp
        · split <;> simp

/-- Splitting a list headed by a non-boundary character yields a first line
headed by that character. -/
theorem splitlinesL_head_cons (c : Char) (rest : List Char) (h : isLineSep c = false) :
    ∃ ln ls, splitlinesL (c :: rest) = (c :: ln) :: ls := by
  cases rest with
  | nil =>
    refine ⟨[], [], ?_⟩
    simp [splitlinesL, h]
  | cons c2 rest2 =>
    have hcr : (c == '\r') = false := by
      cases hc : c == '\r'
      · rfl
      · have hceq : c = '\r' := by simpa using hc
        subst hceq
        simp [isLineSep] at h
    cases hsp : splitlinesL (c2 :: rest2) with
    | nil => exact absurd hsp (splitlinesL_ne_nil (by simp))
    | cons ln ls =>
      refine ⟨ln, ls, ?_⟩
      simp [splitlinesL, h, hcr, hsp]

/-- If every line of a split is all-whitespace, the whole string is. -/
theorem splitlinesL_all_space : ∀ (l : List Char),
    (∀ ln ∈ splitlinesL l, ∀ c ∈ ln, isPySpace c = true) →
    ∀ c ∈ l, isPySpace c = true
  | [] => fun _ c hc => absurd hc (by simp)
  | [c0] => fun h c hc => by
    have hc0 : c = c0 := by simpa using hc
    rw [hc0]
    by_cases hsep : isLineSep c0 = true
    · exact isPySpace_of_isLineSep hsep
    · have hm : [c0] ∈ splitlinesL [c0] := by
        simp only [splitlinesL]
        rw [if_neg hsep]
        simp
      exact h [c0] hm c0 (by simp)
  | c0 :: c2 :: rest => fun h c hc => by
    have hc' : c = c0 ∨ c = c2 ∨ c ∈ rest := by simpa using hc
    by_cases hrn : (c0 == '\r' && c2 == '\n') = true
    · have hr : c0 = '\r' ∧ c2 = '\n' := by
        have h2 := (Bool.and_eq_true _ _).mp hrn
        exact ⟨by simpa using h2.1, by simpa using h2.2⟩
      have he : splitlinesL (c0 :: c2 :: rest) = [] :: splitlinesL rest := by
        simp only [splitlinesL]
        rw [if_pos hrn]
      have htail : ∀ ln ∈ splitlinesL rest, ∀ ch ∈ ln, isPySpace ch = true := by
        intro ln hln ch hch
        exact h ln (by rw [he]; exact List.mem_cons_of_mem _ hln) ch hch
      have ih := splitlinesL_all_space rest htail
      rcases hc' with rfl | rfl | hcr
      · rw [hr.1]; decide
      · rw [hr.2]; decide
      · exact ih c hcr
    · by_cases hsep : isLineSep c0 = true
      · have he : splitlinesL (c0 :: c2 :: rest) = [] :: splitlinesL (c2 :: rest) := by
          simp only [splitlinesL]
          rw [if_neg hrn, if_pos hsep]
        have htail : ∀ ln ∈ splitlinesL (c2 :: rest), ∀ ch ∈ ln, isPySpace ch = true := by
          intro ln hln ch hch
          exact h ln (by rw [he]; exact List.mem_cons_of_mem _ hln) ch hch
        have ih := splitlinesL_all_space (c2 :: rest) htail
        rcases hc' with rfl | rfl | hcr
        · exact isPySpace_of_isLineSep hsep
        · exact ih c (by simp)
        · exact ih c (by simp [hcr])
      · cases hsp : splitlinesL (c2 :: rest) with
        | nil => exact absurd hsp (splitlinesL_ne_nil (by simp))
        | cons ln ls =>
          have he : splitlinesL (c0 :: c2 :: rest) = (c0 :: ln) :: ls := by
            simp only [splitlinesL]
            rw [if_neg hrn, if_neg hsep, hsp]
          have hhead := h (c0 :: ln) (by rw [he]; exact List.mem_cons_self _ _)
          have htail : ∀ ln' ∈ splitlinesL (c2 :: rest), ∀ ch ∈ ln', isPySpace ch = true := by
            intro ln' hln' ch hch
            rw [hsp] at hln'
            rcases List.mem_cons.mp hln' with rfl | hls
            · exact hhead ch (List.mem_cons_of_mem _ hch)
            · exact h ln' (by rw [he]; exact List.mem_cons_of_mem _ hls) ch hch
          have ih := splitlinesL_all_space (c2 :: rest) htail
          rcases hc' with rfl | rfl | hcr
          · exact hhead c (by simp)
          · exact ih c (by simp)
          · exact ih c (by simp [hcr])

/-- Bridging: a string built from a character list is empty exactly when
the list is. -/
theorem string_mk_eq_empty_iff {l : List Char} : (⟨l⟩ : String) = "" ↔ l = [] := by
  constructor
  · intro h
    have h2 := congrArg String.data h
    exact h2
  · intro h
    subst h
    rfl

/-- `startswith "•"` on a nonempty string only inspects the head. -/
theorem pyStartswith_bullet_cons (c : Char) (t : List Char) :
    pyStartswith ⟨c :: t⟩ "•" = ('•' == c) := by
  show List.isPrefixOf ['•'] (c :: t) = ('•' == c)
  simp [List.isPrefixOf]

/-- The re-bulleting branch of `summarize_focused`: when the stripped text
is nonempty and does not begin with a bullet, the result is exactly the
stripped non-blank lines with bullets ensured, joined by newlines - the
`lines = []` fallback inside the branch is unreachable there. -/
theorem summarizeFocusedPost_rebullet (s : String)
    (h1 : pyStrip s ≠ "")
    (h2 : pyStartswith (pyLstrip (pyStrip s)) "•" = false) :
    summarizeFocusedPost s =
      String.intercalate "\n"
        ((((pySplitlines (pyStrip s)).map pyStrip).filter (fun l => l ≠ "")).map
          (fun line => if pyStartswith line "•" = false then "• " ++ line else line)) := by
  have hidem : stripL (stripL s.data) = stripL s.data := stripL_idem s.data
  have hne : stripL s.data ≠ [] := fun hnil => h1 (string_mk_eq_empty_iff.mpr hnil)
  cases hdc : stripL s.data with
  | nil => exact absurd hdc hne
  | cons c t =>
    have hc : isPySpace c = false := stripL_head_not_space (hdc ▸ hidem)
    have hsep : isLineSep c = false := by
      cases hsl : isLineSep c
      · rfl
      · have h3 := isPySpace_of_isLineSep hsl
        rw [h3] at hc
        exact Bool.noConfusion hc
    obtain ⟨ln, ls, hln⟩ := splitlinesL_head_cons c t hsep
    have hstrip : stripL (c :: ln) ≠ [] := by
      intro hcon
      have h4 := stripL_eq_nil_iff.mp hcon c (by simp)
      rw [h4] at hc
      exact Bool.noConfusion hc
    have hmem : (⟨c :: ln⟩ : String) ∈ pySplitlines (pyStrip s) := by
      show (⟨c :: ln⟩ : String) ∈ (splitlinesL (stripL s.data)).map (fun l => (⟨l⟩ : String))
      rw [hdc, hln]
      simp
    have hlinemem : pyStrip ⟨c :: ln⟩ ∈
        ((pySplitlines (pyStrip s)).map pyStrip).filter (fun l => l ≠ "") := by
      rw [List.mem_filter]
      refine ⟨List.mem_map_of_mem pyStrip hmem, ?_⟩
      have h5 : (pyStrip ⟨c :: ln⟩ : String) ≠ "" :=
        fun hcon => hstrip (string_mk_eq_empty_iff.mp hcon)
      simpa using h5
    have hlines : ((pySplitlines (pyStrip s)).map pyStrip).filter (fun l => l ≠ "") ≠ [] :=
      List.ne_nil_of_mem hlinemem
    simp only [summarizeFocusedPost]
    rw [if_neg h1, if_pos h2, if_neg hlines]

/-- C4 counterexample: for the non-empty extracted text "a\n  • b", no raw
line starts with "•" (the second begins with spaces), yet the code keeps
the already-bulleted stripped line "• b" unchanged instead of prefixing it
with "• " once more as the claim, read literally, requires. -/
theorem c4_rebullet_counterexample :
    "a\n  • b" ≠ "" ∧
    (∀ ln ∈ pySplitlines "a\n  • b", pyStartswith ln "•" = false) ∧
    summarizeFocusedPost "a\n  • b" ≠
      String.intercalate "\n"
        ((((pySplitlines "a\n  • b").map pyStrip).filter (fun l => l ≠ "")).map
          (fun line => "• " ++ line)) := by decide

/-- C4 (amended): if the extracted focused-summary text strips to a
non-empty string and no line of that stripped text starts with "•" even
after stripping the line, then `summarize_focused` returns exactly the
non-blank lines, each stripped and prefixed with "• ", joined by newlines
in their original order. -/
theorem c4_rebullet_lines (s : String)
    (h1 : pyStrip s ≠ "")
    (h2 : ∀ ln ∈ pySplitlines (pyStrip s), pyStartswith (pyStrip ln) "•" = false) :
    summarizeFocusedPost s =
      String.intercalate "\n"
        ((((pySplitlines (pyStrip s)).map pyStrip).filter (fun l => l ≠ "")).map
          (fun line => "• " ++ line)) := by
  have hidem : stripL (stripL s.data) = stripL s.data := stripL_idem s.data
  have hne : stripL s.data ≠ [] := fun hnil => h1 (string_mk_eq_empty_iff.mpr hnil)
  have hglobal : pyStartswith (pyLstrip (pyStrip s)) "•" = false := by
    cases hdc : stripL s.data with
    | nil => exact absurd hdc hne
    | cons c t =>
      have hc : isPySpace c = false := stripL_head_not_space (hdc ▸ hidem)
      have hsep : isLineSep c = false := by
        cases hsl : isLineSep c
        · rfl
        · have h3 := isPySpace_of_isLineSep hsl
          rw [h3] at hc
          exact Bool.noConfusion hc
      obtain ⟨ln, ls, hln⟩ := splitlinesL_head_cons c t hsep
      have hmem : (⟨c :: ln⟩ : String) ∈ pySplitlines (pyStrip s) := by
        show (⟨c :: ln⟩ : String) ∈ (splitlinesL (stripL s.data)).map (fun l => (⟨l⟩ : String))
        rw [hdc, hln]
        simp
      obtain ⟨t₂, ht₂⟩ := stripL_cons_of_head c ln hc
      have hcb : ('•' == c) = false := by
        have hx := h2 ⟨c :: ln⟩ hmem
        have hps : pyStrip ⟨c :: ln⟩ = (⟨c :: t₂⟩ : String) :=
          congrArg (fun l => (⟨l⟩ : String)) ht₂
        rw [hps, pyStartswith_bullet_cons] at hx
        exact hx
      have hld : pyLstrip (pyStrip s) = pyStrip s := by
        show (⟨lstripL (stripL s.data)⟩ : String) = ⟨stripL s.data⟩
        rw [lstripL_of_stripped hidem]
      rw [hld]
      show pyStartswith ⟨stripL s.data⟩ "•" = false
      rw [hdc, pyStartswith_bullet_cons]
      exact hcb
  rw [summarizeFocusedPost_rebullet s h1 hglobal]
  apply congrArg (String.intercalate "\n")
  apply List.map_congr_left
  intro x hx
  have hx2 : pyStartswith x "•" = false := by
    obtain ⟨hx3, _⟩ := List.mem_filter.mp hx
    obtain ⟨ln', hln', rfl⟩ := List.mem_map.mp hx3
    exact h2 ln' hln'
  rw [if_pos hx2]

/-- C4 witness: two plain lines are stripped, bulleted and joined in
order. -/
theorem c4_rebullet_lines_witness :
    summarizeFocusedPost "alpha\n beta " =
      String.intercalate "\n"
        ((((pySplitlines (pyStrip "alpha\n beta ")).map pyStrip).filter (fun l => l ≠ "")).map
          (fun line => "• " ++ line)) :=
  c4_rebullet_lines "alpha\n beta " (by decide) (by decide)

/-- C10: when the stripped focused-summary text is non-empty and does not
begin with "•" after left-stripping, the re-bulleting pass emits each
stripped non-blank line once, keeping lines already starting with "•"
unchanged and prefixing "• " only to lines lacking it (so no line is
double-prefixed); and when the extracted text is non-empty but every line
is blank, the fixed fallback bullet is returned. -/
theorem c10_interior_bullets (s : String) :
    (pyStrip s ≠ "" → pyStartswith (pyLstrip (pyStrip s)) "•" = false →
      summarizeFocusedPost s =
        String.intercalate "\n"
          ((((pySplitlines (pyStrip s)).map pyStrip).filter (fun l => l ≠ "")).map
            (fun line => if pyStartswith line "•" = false then "• " ++ line else line))) ∧
    (s ≠ "" → (∀ ln ∈ pySplitlines s, pyStrip ln = "") →
      summarizeFocusedPost s = fallbackBullet) := by
  constructor
  · exact fun h1 h2 => summarizeFocusedPost_rebullet s h1 h2
  · intro hne hblank
    have hall : ∀ ln ∈ splitlinesL s.data, ∀ c ∈ ln, isPySpace c = true := by
      intro ln hln c hcl
      have hmem : (⟨ln⟩ : String) ∈ pySplitlines s :=
        List.mem_map_of_mem (fun l => (⟨l⟩ : String)) hln
      have hb := hblank ⟨ln⟩ hmem
      have hb2 : stripL ln = [] := string_mk_eq_empty_iff.mp hb
      exact stripL_eq_nil_iff.mp hb2 c hcl
    have hall2 : ∀ c ∈ s.data, isPySpace c = true := splitlinesL_all_space s.data hall
    have hstrip : pyStrip s = "" := string_mk_eq_empty_iff.mpr (stripL_eq_nil_iff.mpr hall2)
    simp only [summarizeFocusedPost]
    rw [if_pos hstrip]

/-- C10 witness: an interior bulleted line is kept as is while a plain line
gains a bullet, and whitespace-only text falls back to the fixed bullet. -/
theorem c10_interior_bullets_witness :
    summarizeFocusedPost "intro\n• done" =
      String.intercalate "\n"
        ((((pySplitlines (pyStrip "intro\n• done")).map pyStrip).filter (fun l => l ≠ "")).map
          (fun line => if pyStartswith line "•" = false then "• " ++ line else line)) ∧
    summarizeFocusedPost " \n " = fallbackBullet :=
  ⟨(c10_interior_bullets "intro\n• done").1 (by decide) (by decide),
   (c10_interior_bullets " \n ").2 (by decide) (by decide)⟩

end MeetingNotes
